import Mathlib

/-!
Verification of the job-orchestration core of the youtube-to-epub repository.

The relevant Python modules are embedded shallowly:
  * `app/models/schemas.py`   — data model (statuses, jobs, segments, chapters, summaries)
  * `app/config.py`           — `PROGRESS_STEPS`, `SHORT_VIDEO_THRESHOLD_MINUTES`
  * `app/services/progress_service.py` — `ProgressService` (registry + broadcaster)
  * `app/services/youtube_service.py`  — transcript selection helpers
  * `app/services/chapter_service.py`  — chapter detection and AI segmentation
  * `app/services/summarization_service.py` — overall summary finalization and the
    bounded-concurrency chapter fan-out

Python floats are modelled as rationals, Python ints as `Int`.  Calls to external
collaborators (YouTube, the LLM endpoints) are I/O edges: each embedded function
takes the collaborator's outcome as an argument; everything the Python code does
with such an outcome is translated faithfully, including the exception structure
(a function that may raise an uncaught exception returns `Except`).
-/

/-- Python `int()` applied to a real value: truncation toward zero. -/
def pyInt (q : ℚ) : Int := if 0 ≤ q then ⌊q⌋ else ⌈q⌉

/-! ### `app/models/schemas.py` -/

/-- `ConversionStatus` enumeration. -/
inductive ConversionStatus where
  | validating
  | fetching_metadata
  | fetching_transcript
  | detecting_chapters
  | generating_summaries
  | creating_epub
  | completed
  | failed
deriving DecidableEq

/-- The `.value` string of each `ConversionStatus` member. -/
def ConversionStatus.value : ConversionStatus → String
  | .validating => "validating"
  | .fetching_metadata => "fetching_metadata"
  | .fetching_transcript => "fetching_transcript"
  | .detecting_chapters => "detecting_chapters"
  | .generating_summaries => "generating_summaries"
  | .creating_epub => "creating_epub"
  | .completed => "completed"
  | .failed => "failed"

/-- `TranscriptSegment` pydantic model. -/
structure TranscriptSegment where
  text : String
  start : ℚ
  duration : ℚ
deriving DecidableEq

/-- `VideoChapter` pydantic model. -/
structure VideoChapter where
  title : String
  start_time : ℚ
  end_time : Option ℚ := none
  transcript : String := ""
  summary : String := ""
deriving DecidableEq

/-- `VideoMetadata` pydantic model. -/
structure VideoMetadata where
  video_id : String
  title : String
  channel : String
  duration : Int
  thumbnail_url : Option String := none
  chapters : List VideoChapter := []
  publish_date : Option String := none
deriving DecidableEq

/-- `ProgressUpdate` pydantic model. -/
structure ProgressUpdate where
  job_id : String
  status : ConversionStatus
  progress : Int
  message : String
  error : Option String := none
deriving DecidableEq

/-- `OverallSummary` pydantic model. -/
structure OverallSummary where
  overview : String
  key_takeaways : List String
deriving DecidableEq

/-! ### `app/config.py` -/

/-- `PROGRESS_STEPS`: stage name to (start, end) percentage range. -/
def PROGRESS_STEPS : List (String × (Int × Int)) :=
  [("validating", (0, 5)),
   ("fetching_metadata", (5, 15)),
   ("fetching_transcript", (15, 30)),
   ("detecting_chapters", (30, 40)),
   ("generating_summaries", (40, 80)),
   ("creating_epub", (80, 95)),
   ("completed", (100, 100))]

/-- `SHORT_VIDEO_THRESHOLD_MINUTES`. -/
def SHORT_VIDEO_THRESHOLD_MINUTES : ℚ := 15

/-! ### `app/services/progress_service.py` — data model -/

/-- An `asyncio.Queue`: `maxsize = 0` means unbounded (asyncio semantics);
`subscribe` always constructs `asyncio.Queue()`, i.e. `maxsize = 0`. -/
structure Queue where
  maxsize : Nat
  items : List ProgressUpdate
deriving DecidableEq

/-- The `Job` dataclass. -/
structure Job where
  job_id : String
  status : ConversionStatus := .validating
  progress : Int := 0
  message : String := "Starting conversion..."
  error : Option String := none
  file_path : Option String := none
  file_name : Option String := none
  subscribers : List Queue := []
deriving DecidableEq

/-- The `ProgressService._jobs` dict, as an association list with unique keys
(Python dicts keep the insertion position on re-assignment; `dictSet` mirrors
this by replacing in place). -/
abbrev ProgressService := List (String × Job)

/-- Dict read: `self._jobs.get(job_id)`. -/
def dictGet (s : ProgressService) (k : String) : Option Job :=
  match s with
  | [] => none
  | p :: t => if p.1 = k then some p.2 else dictGet t k

/-- Dict assignment: `self._jobs[job_id] = job` (replace in place or append). -/
def dictSet (s : ProgressService) (k : String) (v : Job) : ProgressService :=
  match s with
  | [] => [(k, v)]
  | p :: t => if p.1 = k then (k, v) :: t else p :: dictSet t k v

/-- Dict deletion: `del self._jobs[job_id]`. -/
def dictDelete (s : ProgressService) (k : String) : ProgressService :=
  match s with
  | [] => []
  | p :: t => if p.1 = k then t else p :: dictDelete t k

/-! ### `app/services/progress_service.py` — operations

Each mutating operation returns the new service state together with the list of
`ProgressUpdate` events it published (the Python code publishes by awaiting
`_notify_subscribers`; an operation that returns `[]` published nothing). -/

/-- The `ProgressUpdate` snapshot built by `_notify_subscribers`. -/
def buildUpdate (job : Job) : ProgressUpdate :=
  { job_id := job.job_id, status := job.status, progress := job.progress,
    message := job.message, error := job.error }

/-- `await queue.put(update)` with the service's `except asyncio.QueueFull: pass`
branch: returns the queue after the attempt and whether the event was enqueued
(`false` = dropped on a full bounded queue). -/
def queuePut (q : Queue) (u : ProgressUpdate) : Queue × Bool :=
  if q.maxsize = 0 ∨ q.items.length < q.maxsize then
    ({ q with items := q.items ++ [u] }, true)
  else (q, false)

/-- `_notify_subscribers`: push the snapshot into every subscribed queue. -/
def notify_subscribers (job : Job) : Job × ProgressUpdate :=
  let u := buildUpdate job
  ({ job with subscribers := job.subscribers.map (fun q => (queuePut q u).1) }, u)

/-- The sinks whose `put` dropped the event in `_notify_subscribers`. -/
def droppedSinks (job : Job) : List Queue :=
  job.subscribers.filter (fun q => (queuePut q (buildUpdate job)).2 = false)

/-- `create_job`: `Job(job_id=job_id)` then `self._jobs[job_id] = job`. -/
def create_job (s : ProgressService) (job_id : String) : Job × ProgressService :=
  let job : Job := { job_id := job_id }
  (job, dictSet s job_id job)

/-- `get_job`. -/
def get_job (s : ProgressService) (job_id : String) : Option Job :=
  dictGet s job_id

/-- `update_progress`: set status and message, recompute `progress` from
`PROGRESS_STEPS` (`int(start + (end - start) * sub_progress)`, falling back to
0 for a status absent from the table), then notify subscribers.  Silently does
nothing when the job id is unknown. -/
def update_progress (s : ProgressService) (job_id : String)
    (status : ConversionStatus) (message : String) (sub_progress : ℚ) :
    ProgressService × List ProgressUpdate :=
  match dictGet s job_id with
  | none => (s, [])
  | some job =>
    let job1 : Job := { job with status := status, message := message }
    let prog : Int :=
      match PROGRESS_STEPS.lookup status.value with
      | some (start, «end») => pyInt ((start : ℚ) + ((«end» : ℚ) - start) * sub_progress)
      | none => 0
    let job2 : Job := { job1 with progress := prog }
    let r := notify_subscribers job2
    (dictSet s job_id r.1, [r.2])

/-- `set_error`: status `failed`, store the error, reformat the message. -/
def set_error (s : ProgressService) (job_id : String) (error : String) :
    ProgressService × List ProgressUpdate :=
  match dictGet s job_id with
  | none => (s, [])
  | some job =>
    let job1 : Job := { job with status := .failed, error := some error, message := "Error: " ++ error }
    let r := notify_subscribers job1
    (dictSet s job_id r.1, [r.2])

/-- `set_completed`: status `completed`, progress 100, store the file fields.
The Python body never touches `job.error`. -/
def set_completed (s : ProgressService) (job_id : String)
    (file_path file_name : String) : ProgressService × List ProgressUpdate :=
  match dictGet s job_id with
  | none => (s, [])
  | some job =>
    let job1 : Job := { job with status := .completed, progress := 100, message := "Conversion complete!" }
    let job2 : Job := { job1 with file_path := some file_path, file_name := some file_name }
    let r := notify_subscribers job2
    (dictSet s job_id r.1, [r.2])

/-- `subscribe`: register a fresh `asyncio.Queue()` (unbounded) for the job. -/
def subscribe (s : ProgressService) (job_id : String) :
    Option Queue × ProgressService :=
  match dictGet s job_id with
  | none => (none, s)
  | some job =>
    let q : Queue := { maxsize := 0, items := [] }
    (some q, dictSet s job_id { job with subscribers := job.subscribers ++ [q] })

/-- `unsubscribe`: remove the first occurrence of the queue, if present. -/
def unsubscribe (s : ProgressService) (job_id : String) (q : Queue) :
    ProgressService :=
  match dictGet s job_id with
  | none => s
  | some job =>
    if q ∈ job.subscribers then
      dictSet s job_id { job with subscribers := job.subscribers.erase q }
    else s

/-- `cleanup_job`: drop the record. -/
def cleanup_job (s : ProgressService) (job_id : String) : ProgressService :=
  if (dictGet s job_id).isSome then dictDelete s job_id else s

/-- One call against the service, for stating reachability of store states. -/
inductive ServiceOp where
  | create (job_id : String)
  | update (job_id : String) (status : ConversionStatus) (message : String) (sub : ℚ)
  | err (job_id : String) (e : String)
  | complete (job_id : String) (path name : String)
  | sub (job_id : String)
  | unsub (job_id : String) (q : Queue)
  | cleanup (job_id : String)

/-- Apply one service call to the store. -/
def execOp (s : ProgressService) (op : ServiceOp) : ProgressService :=
  match op with
  | .create id => (create_job s id).2
  | .update id st m sp => (update_progress s id st m sp).1
  | .err id e => (set_error s id e).1
  | .complete id p n => (set_completed s id p n).1
  | .sub id => (subscribe s id).2
  | .unsub id q => unsubscribe s id q
  | .cleanup id => cleanup_job s id

/-- The store after a sequence of service calls, starting from the fresh
module-level `ProgressService()` (empty dict). -/
def execOps (ops : List ServiceOp) : ProgressService :=
  ops.foldl execOp []

/-! ### `app/services/youtube_service.py` — transcript helpers -/

/-- `get_transcript_text`: `" ".join(segment.text for segment in segments)`. -/
def get_transcript_text (segments : List TranscriptSegment) : String :=
  String.intercalate " " (segments.map (fun seg => seg.text))

/-- The segments whose text `get_transcript_for_timerange` collects: with an
end bound, a segment is kept when it overlaps the window
(`segment.start < end_time and segment.start + segment.duration > start_time`);
without one, when `segment.start >= start_time`. -/
def segments_in_timerange (segments : List TranscriptSegment) (start_time : ℚ)
    (end_time : Option ℚ) : List TranscriptSegment :=
  segments.filter (fun seg =>
    match end_time with
    | some e => decide (seg.start < e ∧ start_time < seg.start + seg.duration)
    | none => decide (start_time ≤ seg.start))

/-- `get_transcript_for_timerange`: join the kept segments' text. -/
def get_transcript_for_timerange (segments : List TranscriptSegment)
    (start_time : ℚ) (end_time : Option ℚ) : String :=
  String.intercalate " "
    ((segments_in_timerange segments start_time end_time).map (fun seg => seg.text))

/-! ### A minimal JSON value, for the decoded LLM responses -/

/-- The result of a successful `json.loads` on an LLM response. -/
inductive JsonVal where
  | str (s : String)
  | num (q : ℚ)
  | bool (b : Bool)
  | null
  | arr (xs : List JsonVal)
  | obj (fields : List (String × JsonVal))

/-- `data[k]` on a JSON object's fields, as an optional read. -/
def jsonLookup (fields : List (String × JsonVal)) (k : String) : Option JsonVal :=
  match fields with
  | [] => none
  | p :: t => if p.1 = k then some p.2 else jsonLookup t k

/-! ### `app/services/chapter_service.py` -/

/-- Read one element of the segmentation response: `ch["title"]` must be a
string (pydantic `title: str`) and `ch["start_percent"]` a number (it is
divided by 100); any other shape raises inside the `try` block, which the
caller's `except` maps to the fallback — modelled as `none`. -/
def chapterEntry (j : JsonVal) : Option (String × ℚ) :=
  match j with
  | .obj fields =>
    match jsonLookup fields "title", jsonLookup fields "start_percent" with
    | some (.str t), some (.num p) => some (t, p)
    | _, _ => none
  | _ => none

/-- Read the whole decoded segmentation response.  The Python loop
`for i, ch in enumerate(chapter_data)` succeeds only on a JSON array of
well-shaped objects; iterating a non-empty object or string yields strings or
characters whose `["title"]` raises, and non-iterables raise at `enumerate` —
all mapped to `none`.  Empty iterables yield no chapters at all. -/
def buildChapterData (j : JsonVal) : Option (List (String × ℚ)) :=
  match j with
  | .arr xs => xs.mapM chapterEntry
  | .obj [] => some []
  | .str s => if s.isEmpty then some [] else none
  | _ => none

/-- The chapter-construction loop of `ai_segment_chapters`: start time is
`start_percent / 100 * duration`, end time is the next chapter's start or the
video duration for the last, transcript is the time-range selection. -/
def buildChapters (metadata : VideoMetadata) (transcript : List TranscriptSegment) :
    List (String × ℚ) → List VideoChapter
  | [] => []
  | (t, p) :: rest =>
    let start_time : ℚ := p / 100 * (metadata.duration : ℚ)
    let end_time : ℚ :=
      match rest with
      | (_, p2) :: _ => p2 / 100 * (metadata.duration : ℚ)
      | [] => (metadata.duration : ℚ)
    { title := t, start_time := start_time, end_time := some end_time,
      transcript := get_transcript_for_timerange transcript start_time (some end_time),
      summary := "" } :: buildChapters metadata transcript rest

/-- The single whole-video chapter used both for short videos and as the
segmentation fallback. -/
def wholeVideoChapter (metadata : VideoMetadata) (full_transcript : String) :
    VideoChapter :=
  { title := metadata.title, start_time := 0, end_time := some ((metadata.duration : ℚ)),
    transcript := full_transcript, summary := "" }

/-- `ai_segment_chapters`.  The LLM call, the code-fence stripping and
`json.loads` form the I/O edge: `response = none` covers every exception they
can raise (transport failure or `json.JSONDecodeError`), `response = some j`
is the decoded value.  The entire body sits in one `try` whose `except` returns
the single whole-video fallback chapter. -/
def ai_segment_chapters (metadata : VideoMetadata)
    (transcript : List TranscriptSegment) (full_transcript : String)
    (response : Option JsonVal) : List VideoChapter :=
  match response with
  | none => [wholeVideoChapter metadata full_transcript]
  | some j =>
    match buildChapterData j with
    | none => [wholeVideoChapter metadata full_transcript]
    | some data => buildChapters metadata transcript data

/-- `detect_chapters`: upstream chapters if present, one whole-video chapter
for short videos, AI segmentation otherwise. -/
def detect_chapters (metadata : VideoMetadata)
    (transcript : List TranscriptSegment) (response : Option JsonVal) :
    List VideoChapter :=
  if metadata.chapters ≠ [] then
    metadata.chapters.map (fun chapter =>
      { title := chapter.title, start_time := chapter.start_time,
        end_time := chapter.end_time,
        transcript := get_transcript_for_timerange transcript chapter.start_time chapter.end_time,
        summary := "" })
  else
    let full_transcript := get_transcript_text transcript
    let duration_minutes : ℚ := (metadata.duration : ℚ) / 60
    if duration_minutes < SHORT_VIDEO_THRESHOLD_MINUTES then
      [wholeVideoChapter metadata full_transcript]
    else
      ai_segment_chapters metadata transcript full_transcript response

/-! ### `app/services/summarization_service.py` — final summary -/

/-- An exception escaping `generate_overall_summary`'s response handling: the
`except` clause there catches only `json.JSONDecodeError`. -/
inductive PyExc where
  | keyError (k : String)
  | typeError
  | validationError
deriving DecidableEq

/-- The code-fence stripping applied to the stripped response text:
`content.split("```")[1]`, drop a leading `"json"`, strip whitespace. -/
def extract_content (content : String) : String :=
  if (content.splitOn "```").length > 1 then
    let c := ((content.splitOn "```").drop 1).headD ""
    let c := if c.startsWith "json" then c.drop 4 else c
    c.trim
  else content

/-- `OverallSummary(overview=data["overview"], key_takeaways=data["key_takeaways"])`:
dictionary reads raise `KeyError` on a missing key and `TypeError` on a
non-object, and the pydantic constructor raises a validation error unless
`overview` is a string and `key_takeaways` a list of strings. -/
def coerce_overall_summary (data : JsonVal) : Except PyExc OverallSummary :=
  match data with
  | .obj fields =>
    match jsonLookup fields "overview" with
    | none => .error (.keyError "overview")
    | some ov =>
      match jsonLookup fields "key_takeaways" with
      | none => .error (.keyError "key_takeaways")
      | some kt =>
        match ov, kt with
        | .str o, .arr xs =>
          match xs.mapM (fun j => match j with | .str s => some s | _ => none) with
          | some ts => .ok { overview := o, key_takeaways := ts }
          | none => .error .validationError
        | _, _ => .error .validationError
  | _ => .error .typeError

/-- The fallback takeaway list used when JSON decoding fails. -/
def fallbackTakeaways : List String :=
  ["Summary generation encountered an error. Please refer to the transcript."]

/-- The response handling at the end of `generate_overall_summary`.
`content` is the LLM output after `.strip()`; `decoded` is the outcome of
`json.loads` on `extract_content content` (`none` = `json.JSONDecodeError`,
the only exception the `try` catches, answered with the best-effort fallback
`content[:1000]` plus a placeholder takeaway). -/
def finalize_overall_summary (content : String) (decoded : Option JsonVal) :
    Except PyExc OverallSummary :=
  let c := extract_content content
  match decoded with
  | none => .ok { overview := c.take 1000, key_takeaways := fallbackTakeaways }
  | some data => coerce_overall_summary data

/-! ### `app/services/summarization_service.py` — chapter fan-out

`generate_all_chapter_summaries` creates one asyncio task per chapter; each
task acquires a `Semaphore(3)` slot, awaits the per-chapter summarization,
stores the summary on its own chapter, invokes the progress callback with
`(i + 1, len(chapters))`, releases the slot, and delivers its result into its
own `gather` slot.  The scheduler's freedom is modelled as a small-step
relation: a step either admits a waiting task (possible only while fewer than
3 tasks hold the semaphore) or completes a running task (recording its result
in its own slot and appending its callback invocation to the event trace). -/

/-- `chapter.summary = await generate_chapter_summary(chapter)`, with the LLM
call abstracted as `summarize`. -/
def process_chapter (summarize : VideoChapter → String) (ch : VideoChapter) :
    VideoChapter :=
  { ch with summary := summarize ch }

/-- Where one per-chapter task stands. -/
inductive TaskPhase where
  | waiting
  | running
  | done
deriving DecidableEq

/-- State of one fan-out run: per-task phases, per-task result slots, and the
trace of `progress_callback(completed, total)` invocations in call order. -/
structure FanState where
  phases : List TaskPhase
  results : List (Option VideoChapter)
  events : List (Nat × Nat)
deriving DecidableEq

/-- Number of tasks currently holding a semaphore slot. -/
def runningCount (phases : List TaskPhase) : Nat :=
  phases.countP (fun p => p == .running)

/-- All tasks created, none admitted, nothing completed. -/
def fanInit (chapters : List VideoChapter) : FanState :=
  { phases := chapters.map (fun _ => .waiting),
    results := chapters.map (fun _ => none),
    events := [] }

/-- One scheduler step of `generate_all_chapter_summaries`. -/
inductive FanStep (chapters : List VideoChapter)
    (summarize : VideoChapter → String) : FanState → FanState → Prop where
  | acquire (s : FanState) (i : Nat)
      (hwait : s.phases[i]? = some .waiting)
      (hcap : runningCount s.phases < 3) :
      FanStep chapters summarize s
        { s with phases := s.phases.set i .running }
  | finish (s : FanState) (i : Nat) (ch : VideoChapter)
      (hrun : s.phases[i]? = some .running)
      (hch : chapters[i]? = some ch) :
      FanStep chapters summarize s
        { phases := s.phases.set i .done,
          results := s.results.set i (some (process_chapter summarize ch)),
          events := s.events ++ [(i + 1, chapters.length)] }

/-- The states a fan-out run over `chapters` can reach. -/
def FanReach (chapters : List VideoChapter) (summarize : VideoChapter → String)
    (s : FanState) : Prop :=
  Relation.ReflTransGen (FanStep chapters summarize) (fanInit chapters) s

/-! ### Store lemmas -/

theorem dictGet_dictSet_self (s : ProgressService) (k : String) (v : Job) :
    dictGet (dictSet s k v) k = some v := by
  induction s with
  | nil => simp [dictGet, dictSet]
  | cons p t ih =>
    by_cases h : p.1 = k
    · simp [dictSet, dictGet, h]
    · simp [dictSet, dictGet, h, ih]

theorem dictGet_dictSet_ne (s : ProgressService) (k k2 : String) (v : Job)
    (h : k2 ≠ k) : dictGet (dictSet s k v) k2 = dictGet s k2 := by
  have h2 : ¬(k = k2) := fun e => h e.symm
  induction s with
  | nil => simp [dictGet, dictSet, h2]
  | cons p t ih =>
    by_cases hp : p.1 = k
    · simp [dictSet, dictGet, hp, h2]
    · simp [dictSet, dictGet, hp, h, ih]

theorem mem_dictSet (s : ProgressService) (k : String) (v : Job)
    (p : String × Job) (hp : p ∈ dictSet s k v) : p.2 = v ∨ p ∈ s := by
  induction s with
  | nil =>
    simp [dictSet] at hp
    left; rw [hp]
  | cons q t ih =>
    by_cases h : q.1 = k
    · simp [dictSet, h] at hp
      rcases hp with hp | hp
      · left; rw [hp]
      · right; exact List.mem_cons_of_mem q hp
    · simp [dictSet, h] at hp
      rcases hp with hp | hp
      · right; rw [hp]; exact List.mem_cons_self q t
      · rcases ih hp with h2 | h2
        · left; exact h2
        · right; exact List.mem_cons_of_mem q h2

theorem mem_dictDelete (s : ProgressService) (k : String)
    (p : String × Job) (hp : p ∈ dictDelete s k) : p ∈ s := by
  induction s with
  | nil => simp [dictDelete] at hp
  | cons q t ih =>
    by_cases h : q.1 = k
    · simp [dictDelete, h] at hp
      exact List.mem_cons_of_mem q hp
    · simp [dictDelete, h] at hp
      rcases hp with hp | hp
      · rw [hp]; exact List.mem_cons_self q t
      · exact List.mem_cons_of_mem q (ih hp)

theorem dictGet_mem (s : ProgressService) (k : String) (v : Job)
    (h : dictGet s k = some v) : (k, v) ∈ s := by
  induction s with
  | nil => simp [dictGet] at h
  | cons p t ih =>
    by_cases hp : p.1 = k
    · simp [dictGet, hp] at h
      have : p = (k, v) := by
        cases p; simp_all
      rw [← this]; exact List.mem_cons_self p t
    · simp [dictGet, hp] at h
      exact List.mem_cons_of_mem p (ih h)

/-! ### Claim C6 — unknown id is a silent no-op -/

/-- C6: for a job id not in the store, `update_progress`, `set_error` and
`set_completed` each return the store unchanged and publish no event (the
embedded functions are total, so nothing is raised). -/
theorem C6_unknown_id_noop (s : ProgressService) (id : String)
    (h : dictGet s id = none) (status : ConversionStatus)
    (msg e path name : String) (sub : ℚ) :
    update_progress s id status msg sub = (s, [])
    ∧ set_error s id e = (s, [])
    ∧ set_completed s id path name = (s, []) := by
  unfold update_progress set_error set_completed
  rw [h]
  exact ⟨rfl, rfl, rfl⟩

theorem C6_witness :
    update_progress [] "x" ConversionStatus.validating "m" 0 = ([], [])
    ∧ set_error [] "x" "e" = ([], [])
    ∧ set_completed [] "x" "p" "n" = ([], []) :=
  C6_unknown_id_noop [] "x" rfl ConversionStatus.validating "m" "e" "p" "n" 0

/-! ### Claim C4 — `set_completed` does not clear the error field -/

/-- C4 counterexample: a job that failed once (`error = some "boom"`) keeps its
error text after `set_completed`; the field is not cleared, contrary to the
claim.  Status, progress and the result fields are set as claimed. -/
theorem C4_counterexample :
    (get_job (set_completed (set_error [("j", { job_id := "j" })] "j" "boom").1
        "j" "/out/f.epub" "f.epub").1 "j").map Job.error
      = some (some "boom") := by
  decide

/-- C4 (amended): `set_completed` on an existing job sets status `completed`,
progress exactly 100, the completion message and both result fields, and
leaves the `error` field unchanged (it does not clear it). -/
theorem C4_set_completed (s : ProgressService) (id path name : String)
    (job : Job) (h : dictGet s id = some job) :
    ∃ job2, dictGet (set_completed s id path name).1 id = some job2
      ∧ job2.status = .completed ∧ job2.progress = 100
      ∧ job2.message = "Conversion complete!"
      ∧ job2.file_path = some path ∧ job2.file_name = some name
      ∧ job2.error = job.error := by
  unfold set_completed
  rw [h]
  exact ⟨_, dictGet_dictSet_self .., rfl, rfl, rfl, rfl, rfl, rfl⟩

theorem C4_witness :
    ∃ job2, dictGet (set_completed [("j", { job_id := "j" })] "j" "p" "n").1 "j"
        = some job2
      ∧ job2.status = .completed ∧ job2.progress = 100
      ∧ job2.message = "Conversion complete!"
      ∧ job2.file_path = some "p" ∧ job2.file_name = some "n"
      ∧ job2.error = Job.error { job_id := "j" } :=
  C4_set_completed [("j", { job_id := "j" })] "j" "p" "n" { job_id := "j" } (by decide)

/-! ### Claim C5 — duplicate `create` does not fail -/

/-- Failure the spec prescribes for `create` on an existing id. -/
inductive DuplicateJobError where
  | duplicate
deriving DecidableEq

/-- Modelled from the spec, for comparison with the code's `create_job`:
"`create(id) -> Job`: inserts a new record with default initial fields; fails
with `DuplicateJobError` if id already present". -/
def create_job_spec (s : ProgressService) (job_id : String) :
    Except DuplicateJobError (Job × ProgressService) :=
  if (dictGet s job_id).isSome then .error .duplicate
  else .ok (create_job s job_id)

/-- C5 counterexample: on a store already holding job "j" (progress 55), the
spec's `create` fails with `DuplicateJobError`, but the code's `create_job`
returns normally and silently overwrites the record with a fresh default job
(progress reset to 0). -/
theorem C5_counterexample :
    create_job_spec [("j", { job_id := "j", progress := 55 })] "j"
        = .error .duplicate
    ∧ (create_job [("j", { job_id := "j", progress := 55 })] "j").1
        = { job_id := "j" }
    ∧ (create_job [("j", { job_id := "j", progress := 55 })] "j").2
        = [("j", { job_id := "j" })] :=
  ⟨rfl, by decide, by decide⟩

/-- C5 (amended): `create_job` unconditionally inserts a job with the default
initial fields and returns it; when the id is already present the old record
is silently overwritten — no `DuplicateJobError` is raised.  Other keys are
untouched. -/
theorem C5_create_overwrites (s : ProgressService) (id k2 : String)
    (hk : k2 ≠ id) :
    (create_job s id).1 = { job_id := id }
    ∧ dictGet (create_job s id).2 id = some { job_id := id }
    ∧ dictGet (create_job s id).2 k2 = dictGet s k2 := by
  refine ⟨rfl, dictGet_dictSet_self .., dictGet_dictSet_ne s id k2 _ hk⟩

theorem C5_witness :
    (create_job [("j", { job_id := "j", progress := 55 })] "j").1
        = { job_id := "j" }
    ∧ dictGet (create_job [("j", { job_id := "j", progress := 55 })] "j").2 "j"
        = some { job_id := "j" }
    ∧ dictGet (create_job [("j", { job_id := "j", progress := 55 })] "j").2 "k"
        = dictGet [("j", { job_id := "j", progress := 55 })] "k" :=
  C5_create_overwrites [("j", { job_id := "j", progress := 55 })] "j" "k"
    (by decide)

/-! ### Claim C1 — `update_progress` truncates rather than rounds -/

theorem pyInt_interval {a b : Int} {sub : ℚ} (ha : 0 ≤ a) (hab : a ≤ b)
    (h0 : 0 ≤ sub) (h1 : sub ≤ 1) :
    a ≤ pyInt ((a : ℚ) + ((b : ℚ) - a) * sub)
    ∧ pyInt ((a : ℚ) + ((b : ℚ) - a) * sub) ≤ b := by
  have hba : (0 : ℚ) ≤ (b : ℚ) - a := by
    have : (a : ℚ) ≤ (b : ℚ) := by exact_mod_cast hab
    linarith
  have hx0 : (a : ℚ) ≤ (a : ℚ) + ((b : ℚ) - a) * sub := by nlinarith
  have hxb : (a : ℚ) + ((b : ℚ) - a) * sub ≤ (b : ℚ) := by nlinarith
  have hnn : (0 : ℚ) ≤ (a : ℚ) + ((b : ℚ) - a) * sub :=
    le_trans (by exact_mod_cast ha) hx0
  unfold pyInt
  rw [if_pos hnn]
  constructor
  · exact Int.le_floor.mpr hx0
  · calc ⌊(a : ℚ) + ((b : ℚ) - a) * sub⌋ ≤ ⌊((b : Int) : ℚ)⌋ :=
        Int.floor_le_floor hxb
      _ = b := Int.floor_intCast b

theorem progress_steps_bounds {k : String} {a b : Int}
    (h : PROGRESS_STEPS.lookup k = some (a, b)) : 0 ≤ a ∧ a ≤ b := by
  rcases List.lookup_eq_some_iff.mp h with ⟨l1, l2, hsplit, hrest⟩
  have hmem : (k, (a, b)) ∈ PROGRESS_STEPS := by
    rw [hsplit]
    exact List.mem_append_right l1 (List.mem_cons_self _ _)
  have hall : ∀ p ∈ PROGRESS_STEPS, 0 ≤ p.2.1 ∧ p.2.1 ≤ p.2.2 := by decide
  exact hall _ hmem

/-- C1 counterexample: with status `generating_summaries` (weights (40, 80))
and sub-progress 37/100, the code stores `int(40 + 40 * 0.37) = int(54.8) = 54`
while the claimed formula `round(start + (end - start) * subProgress)` gives
55: progress is truncated, not rounded. -/
theorem C1_counterexample :
    (get_job (update_progress [("j", { job_id := "j" })] "j"
        ConversionStatus.generating_summaries "m" (37/100)).1 "j").map
      Job.progress = some 54
    ∧ round ((40 : ℚ) + ((80 : ℚ) - 40) * (37/100)) = 55 := by
  constructor
  · have hval : ((40 : Int) : ℚ) + (((80 : Int) : ℚ) - (40 : Int)) * (37/100)
        = 274/5 := by norm_num
    have hp : pyInt (((40 : Int) : ℚ) + (((80 : Int) : ℚ) - (40 : Int)) * (37/100)) = 54 := by
      unfold pyInt
      rw [hval, if_pos (by norm_num), Int.floor_eq_iff]; norm_num
    have hget : dictGet [("j", { job_id := "j" })] "j" = some { job_id := "j" } := by
      decide
    have hl : List.lookup ConversionStatus.generating_summaries.value PROGRESS_STEPS
        = some (40, 80) := by decide
    simp only [get_job, update_progress, hget, hl, hp, notify_subscribers, buildUpdate,
      dictGet_dictSet_self]
    rfl
  · have : ((40 : ℚ) + ((80 : ℚ) - 40) * (37/100)) = 274/5 := by norm_num
    rw [this, round_eq, show (274/5 : ℚ) + 1/2 = 553/10 by norm_num,
      Int.floor_eq_iff]; norm_num

/-- C1 (amended): for an existing job, a status whose `.value` is a key of
`PROGRESS_STEPS` and a sub-progress in [0, 1], `update_progress` stores
`int(start + (end - start) * subProgress)` — Python truncation, not rounding —
and that value always lies within `[start, end]` inclusive; a status absent
from `PROGRESS_STEPS` stores progress 0. -/
theorem C1_update_progress_truncates (s : ProgressService) (id : String)
    (status : ConversionStatus) (msg : String) (sub : ℚ) (job : Job)
    (hjob : dictGet s id = some job) (h0 : 0 ≤ sub) (h1 : sub ≤ 1) :
    ∃ job2, dictGet (update_progress s id status msg sub).1 id = some job2
      ∧ (∀ a b, PROGRESS_STEPS.lookup status.value = some (a, b) →
          job2.progress = pyInt ((a : ℚ) + ((b : ℚ) - a) * sub)
          ∧ a ≤ job2.progress ∧ job2.progress ≤ b)
      ∧ (PROGRESS_STEPS.lookup status.value = none → job2.progress = 0) := by
  unfold update_progress
  rw [hjob]
  refine ⟨_, dictGet_dictSet_self .., ?_, ?_⟩
  · intro a b hab
    simp only [hab]
    rcases progress_steps_bounds hab with ⟨ha, hb⟩
    exact ⟨rfl, (pyInt_interval ha hb h0 h1).1, (pyInt_interval ha hb h0 h1).2⟩
  · intro hnone
    simp only [hnone]
    rfl

theorem C1_witness :
    (0 : ℚ) ≤ 3/10 ∧
    (∃ job2, dictGet (update_progress [("j", { job_id := "j" })] "j"
        ConversionStatus.generating_summaries "m" (3/10)).1 "j" = some job2
      ∧ (∀ a b, PROGRESS_STEPS.lookup
            ConversionStatus.generating_summaries.value = some (a, b) →
          job2.progress = pyInt ((a : ℚ) + ((b : ℚ) - a) * (3/10))
          ∧ a ≤ job2.progress ∧ job2.progress ≤ b)
      ∧ (PROGRESS_STEPS.lookup ConversionStatus.generating_summaries.value
            = none → job2.progress = 0)) :=
  ⟨by norm_num,
   C1_update_progress_truncates [("j", { job_id := "j" })] "j"
     ConversionStatus.generating_summaries "m" (3/10) { job_id := "j" }
     (by decide) (by norm_num) (by norm_num)⟩

/-! ### Claim C9 — segment/chapter overlap rule -/

/-- C9 counterexample: with boundaries [(0, "A"), (120, "B")] and duration 180,
chapter "B" covers [120, 180].  A segment starting at 110 with duration 20
overlaps the boundary and IS included in chapter "B" even though its start is
below 120 — the claim's "chapter B receives only segments with start ≥ 120"
contradicts the overlap rule stated in the same claim. -/
theorem C9_counterexample :
    (⟨"X", 110, 20⟩ : TranscriptSegment)
      ∈ segments_in_timerange [⟨"X", 110, 20⟩] 120 (some 180)
    ∧ (⟨"X", 110, 20⟩ : TranscriptSegment).start < 120
    ∧ get_transcript_for_timerange [⟨"X", 110, 20⟩] 120 (some 180) = "X" := by
  refine ⟨?_, by norm_num, ?_⟩
  · simp [segments_in_timerange]
    norm_num
  · have hsel : segments_in_timerange [⟨"X", 110, 20⟩] 120 (some 180)
        = [⟨"X", 110, 20⟩] := by
      simp [segments_in_timerange]
      norm_num
    unfold get_transcript_for_timerange
    rw [hsel]
    rfl

/-- C9 (amended): a segment's text is collected for the window
[chapterStart, chapterEnd] iff `segment.start < chapterEnd` and
`segment.start + segment.duration > chapterStart`.  Consequently, with
boundaries [(0, "A"), (120, "B")], chapter "A" ([0, 120]) receives only
segments with start < 120, while chapter "B" ([120, 180]) receives exactly
the segments overlapping [120, 180] — which can include a straddling segment
whose start is below 120. -/
theorem C9_overlap_rule (segments : List TranscriptSegment) (st en : ℚ) :
    (∀ seg, seg ∈ segments_in_timerange segments st (some en) ↔
      seg ∈ segments ∧ seg.start < en ∧ st < seg.start + seg.duration)
    ∧ (∀ seg ∈ segments_in_timerange segments 0 (some 120),
        seg.start < (120 : ℚ)) := by
  constructor
  · intro seg
    simp [segments_in_timerange, List.mem_filter]
  · intro seg hseg
    simp [segments_in_timerange, List.mem_filter] at hseg
    exact hseg.2.1

/-! ### Claim C7 — segmentation failure degrades to the single-chapter fallback -/

/-- C7: for a long video (duration/60 at or above the 15-minute threshold)
without upstream chapter boundaries, every failing segmentation outcome —
transport failure or undecodable output (`response = none`) as well as decoded
but malformed output (`buildChapterData j = none`) — makes `detect_chapters`
return exactly one chapter spanning [0, duration] carrying the full transcript
text, instead of escalating an error. -/
theorem C7_segmentation_failure_fallback (metadata : VideoMetadata)
    (transcript : List TranscriptSegment) (response : Option JsonVal)
    (hnochap : metadata.chapters = [])
    (hlong : SHORT_VIDEO_THRESHOLD_MINUTES ≤ (metadata.duration : ℚ) / 60)
    (hfail : response = none
      ∨ ∃ j, response = some j ∧ buildChapterData j = none) :
    detect_chapters metadata transcript response
      = [{ title := metadata.title, start_time := 0,
           end_time := some ((metadata.duration : ℚ)),
           transcript := get_transcript_text transcript, summary := "" }] := by
  unfold detect_chapters
  rw [hnochap]
  simp only [ne_eq, not_true_eq_false, if_false, if_neg (not_lt.mpr hlong)]
  rcases hfail with hfail | ⟨j, hj, hbuild⟩
  · rw [hfail]
    rfl
  · rw [hj]
    unfold ai_segment_chapters
    simp only [hbuild]
    rfl

theorem C7_witness :
    detect_chapters
      { video_id := "v", title := "T", channel := "c", duration := 1800 }
      [⟨"hello", 0, 5⟩] (some (.str "oops"))
      = [{ title := "T", start_time := 0, end_time := some ((1800 : Int) : ℚ),
           transcript := get_transcript_text [⟨"hello", 0, 5⟩], summary := "" }] :=
  C7_segmentation_failure_fallback
    { video_id := "v", title := "T", channel := "c", duration := 1800 }
    [⟨"hello", 0, 5⟩] (some (.str "oops")) rfl
    (by unfold SHORT_VIDEO_THRESHOLD_MINUTES; norm_num)
    (Or.inr ⟨.str "oops", rfl, rfl⟩)

/-! ### Claim C8 — only undecodable output falls back -/

/-- C8 counterexample: `"{}"` decodes to an empty JSON object — output that
cannot be coerced into the `{overview, keyTakeaways[]}` shape — yet
`generate_overall_summary` raises `KeyError("overview")` instead of returning
the fallback summary, because its `except` clause catches only
`json.JSONDecodeError`. -/
theorem C8_counterexample :
    finalize_overall_summary "{}" (some (.obj []))
      = .error (.keyError "overview") := rfl

/-- Shape the pydantic construction accepts: an object whose `overview` is a
string and whose `key_takeaways` is a list of strings. -/
def CoercibleSummary (data : JsonVal) : Prop :=
  ∃ fields o xs ts, data = .obj fields
    ∧ jsonLookup fields "overview" = some (.str o)
    ∧ jsonLookup fields "key_takeaways" = some (.arr xs)
    ∧ xs.mapM (fun j => match j with | .str s => some s | _ => none) = some ts

theorem coerce_error_of_not_coercible (data : JsonVal)
    (h : ¬ CoercibleSummary data) :
    ∃ e, coerce_overall_summary data = .error e := by
  cases data with
  | obj fields =>
    cases hov : jsonLookup fields "overview" with
    | none =>
      exact ⟨.keyError "overview", by
        unfold coerce_overall_summary
        simp only [hov]⟩
    | some ov =>
      cases hkt : jsonLookup fields "key_takeaways" with
      | none =>
        exact ⟨.keyError "key_takeaways", by
          unfold coerce_overall_summary
          simp only [hov, hkt]⟩
      | some kt =>
        cases ov with
        | str o =>
          cases kt with
          | arr xs =>
            cases hts : xs.mapM
                (fun j => match j with | .str s => some s | _ => none) with
            | none =>
              exact ⟨.validationError, by
                unfold coerce_overall_summary
                simp only [hov, hkt, hts]⟩
            | some ts => exact absurd ⟨fields, o, xs, ts, rfl, hov, hkt, hts⟩ h
          | str s2 =>
            exact ⟨.validationError, by
              unfold coerce_overall_summary
              simp only [hov, hkt]⟩
          | num q =>
            exact ⟨.validationError, by
              unfold coerce_overall_summary
              simp only [hov, hkt]⟩
          | bool b =>
            exact ⟨.validationError, by
              unfold coerce_overall_summary
              simp only [hov, hkt]⟩
          | null =>
            exact ⟨.validationError, by
              unfold coerce_overall_summary
              simp only [hov, hkt]⟩
          | obj f2 =>
            exact ⟨.validationError, by
              unfold coerce_overall_summary
              simp only [hov, hkt]⟩
        | num q =>
          exact ⟨.validationError, by
            unfold coerce_overall_summary
            simp only [hov, hkt]⟩
        | bool b =>
          exact ⟨.validationError, by
            unfold coerce_overall_summary
            simp only [hov, hkt]⟩
        | null =>
          exact ⟨.validationError, by
            unfold coerce_overall_summary
            simp only [hov, hkt]⟩
        | arr xs =>
          exact ⟨.validationError, by
            unfold coerce_overall_summary
            simp only [hov, hkt]⟩
        | obj f2 =>
          exact ⟨.validationError, by
            unfold coerce_overall_summary
            simp only [hov, hkt]⟩
  | str s => exact ⟨.typeError, rfl⟩
  | num q => exact ⟨.typeError, rfl⟩
  | bool b => exact ⟨.typeError, rfl⟩
  | null => exact ⟨.typeError, rfl⟩
  | arr xs => exact ⟨.typeError, rfl⟩

/-- C8 (amended): the fallback summary (best-effort raw text truncated to
1000 characters plus one placeholder takeaway) is returned exactly when JSON
decoding itself fails: on any decoded value the function instead runs the
coercion, which returns the coerced summary precisely on objects carrying a
string `overview` and a list-of-strings `key_takeaways`, and raises an
uncaught exception on every other decoded shape (missing keys, ill-typed
fields, non-object JSON) instead of falling back. -/
theorem C8_decode_failure_fallback (content : String) :
    (finalize_overall_summary content none
      = .ok { overview := (extract_content content).take 1000,
              key_takeaways := fallbackTakeaways })
    ∧ (∀ data, finalize_overall_summary content (some data)
        = coerce_overall_summary data)
    ∧ (∀ fields o xs ts,
        jsonLookup fields "overview" = some (.str o) →
        jsonLookup fields "key_takeaways" = some (.arr xs) →
        xs.mapM (fun j => match j with | .str s => some s | _ => none)
          = some ts →
        coerce_overall_summary (.obj fields)
          = .ok { overview := o, key_takeaways := ts })
    ∧ (∀ data, ¬ CoercibleSummary data →
        ∃ e, coerce_overall_summary data = .error e) := by
  refine ⟨rfl, fun data => rfl, ?_, ?_⟩
  · intro fields o xs ts hov hkt hts
    unfold coerce_overall_summary
    simp only [hov, hkt, hts]
  · intro data h
    exact coerce_error_of_not_coercible data h

theorem C8_witness :
    finalize_overall_summary "hello" none
      = .ok { overview := (extract_content "hello").take 1000,
              key_takeaways := fallbackTakeaways }
    ∧ finalize_overall_summary "hello" (some (.obj [("x", .null)]))
      = coerce_overall_summary (.obj [("x", .null)])
    ∧ coerce_overall_summary
        (.obj [("overview", .str "o"), ("key_takeaways", .arr [.str "t"])])
      = .ok { overview := "o", key_takeaways := ["t"] }
    ∧ ∃ e, coerce_overall_summary (.arr []) = .error e :=
  ⟨(C8_decode_failure_fallback "hello").1,
   (C8_decode_failure_fallback "hello").2.1 (.obj [("x", .null)]),
   (C8_decode_failure_fallback "hello").2.2.1
     [("overview", .str "o"), ("key_takeaways", .arr [.str "t"])]
     "o" [.str "t"] ["t"] rfl rfl rfl,
   (C8_decode_failure_fallback "hello").2.2.2 (.arr [])
     (by rintro ⟨f, o, xs, ts, hcontr, _, _, _⟩; exact JsonVal.noConfusion hcontr)⟩

/-! ### Claim C10 — subscriber queues are unbounded, the drop branch is dead -/

/-- Every subscriber queue of every job in the store is unbounded. -/
def AllUnbounded (s : ProgressService) : Prop :=
  ∀ p ∈ s, ∀ q ∈ p.2.subscribers, q.maxsize = 0

theorem queuePut_maxsize (q : Queue) (u : ProgressUpdate) :
    ((queuePut q u).1).maxsize = q.maxsize := by
  unfold queuePut
  split
  · rfl
  · rfl

theorem notify_preserves_unbounded (job : Job)
    (h : ∀ q ∈ job.subscribers, q.maxsize = 0) :
    ∀ q ∈ (notify_subscribers job).1.subscribers, q.maxsize = 0 := by
  intro q hq
  simp only [notify_subscribers] at hq
  rcases List.mem_map.mp hq with ⟨q0, hq0, hq0eq⟩
  rw [← hq0eq, queuePut_maxsize]
  exact h q0 hq0

theorem allUnbounded_after_mutate (s : ProgressService) (id : String)
    (job jobNew : Job) (h : AllUnbounded s) (hget : dictGet s id = some job)
    (hsub : jobNew.subscribers = job.subscribers) :
    AllUnbounded (dictSet s id (notify_subscribers jobNew).1) := by
  intro p hp q hq
  rcases mem_dictSet _ _ _ _ hp with h2 | h2
  · rw [h2] at hq
    refine notify_preserves_unbounded jobNew ?_ q hq
    rw [hsub]
    exact h _ (dictGet_mem s id job hget)
  · exact h p h2 q hq

theorem allUnbounded_execOp (s : ProgressService) (op : ServiceOp)
    (h : AllUnbounded s) : AllUnbounded (execOp s op) := by
  cases op with
  | create id =>
    intro p hp q hq
    rcases mem_dictSet _ _ _ _ hp with h2 | h2
    · rw [h2] at hq
      simp [Job.subscribers] at hq
    · exact h p h2 q hq
  | update id st m sp =>
    show AllUnbounded (update_progress s id st m sp).1
    unfold update_progress
    cases hget : dictGet s id with
    | none => exact h
    | some job => exact allUnbounded_after_mutate s id job _ h hget rfl
  | err id e =>
    show AllUnbounded (set_error s id e).1
    unfold set_error
    cases hget : dictGet s id with
    | none => exact h
    | some job => exact allUnbounded_after_mutate s id job _ h hget rfl
  | complete id pa na =>
    show AllUnbounded (set_completed s id pa na).1
    unfold set_completed
    cases hget : dictGet s id with
    | none => exact h
    | some job => exact allUnbounded_after_mutate s id job _ h hget rfl
  | sub id =>
    show AllUnbounded (subscribe s id).2
    unfold subscribe
    cases hget : dictGet s id with
    | none => exact h
    | some job =>
      intro p hp q hq
      rcases mem_dictSet _ _ _ _ hp with h2 | h2
      · rw [h2] at hq
        simp only [List.mem_append, List.mem_singleton] at hq
        rcases hq with hq | hq
        · exact h _ (dictGet_mem s id job hget) q hq
        · rw [hq]
      · exact h p h2 q hq
  | unsub id q0 =>
    show AllUnbounded (unsubscribe s id q0)
    unfold unsubscribe
    cases hget : dictGet s id with
    | none => exact h
    | some job =>
      show AllUnbounded (if q0 ∈ job.subscribers then
        dictSet s id { job with subscribers := job.subscribers.erase q0 } else s)
      by_cases hmem : q0 ∈ job.subscribers
      · rw [if_pos hmem]
        intro p hp q hq
        rcases mem_dictSet _ _ _ _ hp with h2 | h2
        · rw [h2] at hq
          exact h _ (dictGet_mem s id job hget) q (List.mem_of_mem_erase hq)
        · exact h p h2 q hq
      · rw [if_neg hmem]
        exact h
  | cleanup id =>
    show AllUnbounded (cleanup_job s id)
    unfold cleanup_job
    split
    · intro p hp q hq
      exact h p (mem_dictDelete s id p hp) q hq
    · exact h

theorem allUnbounded_execOps (ops : List ServiceOp) :
    AllUnbounded (execOps ops) := by
  have base : AllUnbounded ([] : ProgressService) := by
    intro p hp
    simp at hp
  have hgen : ∀ (s : ProgressService), AllUnbounded s →
      AllUnbounded (ops.foldl execOp s) := by
    induction ops with
    | nil => intro s hs; exact hs
    | cons op t ih => intro s hs; exact ih _ (allUnbounded_execOp s op hs)
  exact hgen [] base

/-- C10: in every store state reachable through the service interface, every
job's subscriber queues were registered by `subscribe` and are therefore
unbounded, so publishing never meets a full sink: the `QueueFull` drop branch
is dead, and `_notify_subscribers` appends the published event to every queue
subscribed at publish time. -/
theorem C10_publish_never_drops (ops : List ServiceOp) (id : String) (job : Job)
    (h : dictGet (execOps ops) id = some job) :
    droppedSinks job = []
    ∧ (notify_subscribers job).1.subscribers
        = job.subscribers.map
            (fun q => { q with items := q.items ++ [buildUpdate job] }) := by
  have hq : ∀ q ∈ job.subscribers, q.maxsize = 0 :=
    allUnbounded_execOps ops (id, job) (dictGet_mem _ _ _ h)
  constructor
  · unfold droppedSinks
    rw [List.filter_eq_nil_iff]
    intro q hmem
    unfold queuePut
    rw [if_pos (Or.inl (hq q hmem))]
    simp
  · unfold notify_subscribers
    refine List.map_congr_left ?_
    intro q hmem
    unfold queuePut
    rw [if_pos (Or.inl (hq q hmem))]

def c10Job : Job :=
  { job_id := "j", subscribers := [{ maxsize := 0, items := [] }] }

theorem C10_witness :
    droppedSinks c10Job = []
    ∧ (notify_subscribers c10Job).1.subscribers
      = c10Job.subscribers.map
          (fun q => { q with items := q.items ++ [buildUpdate c10Job] }) :=
  C10_publish_never_drops [ServiceOp.create "j", ServiceOp.sub "j"] "j" c10Job
    (by decide)

/-! ### Fan-out invariant -/

/-- Invariant of the chapter fan-out: list lengths are stable, at most 3 tasks
hold the semaphore, each completed task has filled exactly its own result slot
with its own processed chapter, unfinished slots are still empty, and the
callback trace holds exactly one `(i + 1, N)` invocation per completed task
`i` (and nothing else). -/
def FanInv (chapters : List VideoChapter) (summarize : VideoChapter → String)
    (s : FanState) : Prop :=
  s.phases.length = chapters.length
  ∧ s.results.length = chapters.length
  ∧ runningCount s.phases ≤ 3
  ∧ (∀ i, i < chapters.length →
      (s.phases[i]? = some .done →
        ∃ ch, chapters[i]? = some ch
          ∧ s.results[i]? = some (some (process_chapter summarize ch)))
      ∧ (s.phases[i]? ≠ some .done → s.results[i]? = some none)
      ∧ s.events.count (i + 1, chapters.length)
          = (if s.phases[i]? = some .done then 1 else 0))
  ∧ (∀ e ∈ s.events, ∃ i, i < chapters.length ∧ e = (i + 1, chapters.length))

theorem fanInv_init (chapters : List VideoChapter)
    (summarize : VideoChapter → String) :
    FanInv chapters summarize (fanInit chapters) := by
  have hph : ∀ i, i < chapters.length →
      (fanInit chapters).phases[i]? = some .waiting := by
    intro i hi
    rw [show (fanInit chapters).phases = chapters.map (fun _ => TaskPhase.waiting)
        from rfl, List.getElem?_map, List.getElem?_eq_getElem hi]
    rfl
  have hres : ∀ i, i < chapters.length →
      (fanInit chapters).results[i]? = some none := by
    intro i hi
    rw [show (fanInit chapters).results
          = chapters.map (fun _ => (none : Option VideoChapter)) from rfl,
      List.getElem?_map, List.getElem?_eq_getElem hi]
    rfl
  refine ⟨by simp [fanInit], by simp [fanInit], ?_, ?_, ?_⟩
  · have hzero : runningCount (fanInit chapters).phases = 0 := by
      rw [runningCount, List.countP_eq_zero]
      intro a ha
      rcases List.mem_map.mp ha with ⟨x, hx, hax⟩
      rw [← hax]
      decide
    rw [hzero]
    omega
  · intro i hi
    refine ⟨?_, ?_, ?_⟩
    · intro hdone
      rw [hph i hi] at hdone
      simp at hdone
    · intro _
      exact hres i hi
    · rw [hph i hi]
      simp [fanInit]
  · intro e he
    simp [fanInit] at he


theorem fanInv_step (chapters : List VideoChapter)
    (summarize : VideoChapter → String) (s s2 : FanState)
    (hinv : FanInv chapters summarize s)
    (hstep : FanStep chapters summarize s s2) :
    FanInv chapters summarize s2 := by
  obtain ⟨hlp, hlr, hrc, hslots, hev⟩ := hinv
  cases hstep with
  | acquire i hwait hcap =>
    rcases List.getElem?_eq_some_iff.mp hwait with ⟨hi, hgi⟩
    refine ⟨by simpa using hlp, hlr, ?_, ?_, hev⟩
    · show runningCount (s.phases.set i .running) ≤ 3
      unfold runningCount at hcap ⊢
      rw [List.countP_set _ _ _ _ hi, hgi]
      have h1 : ((TaskPhase.waiting == TaskPhase.running) = false) := by decide
      have h2 : ((TaskPhase.running == TaskPhase.running) = true) := by decide
      rw [h1, h2]
      simp only [if_false, if_true, Bool.false_eq_true]
      omega
    · intro j hj
      show ((s.phases.set i .running)[j]? = some .done →
          ∃ ch, chapters[j]? = some ch
            ∧ s.results[j]? = some (some (process_chapter summarize ch)))
        ∧ ((s.phases.set i .running)[j]? ≠ some .done → s.results[j]? = some none)
        ∧ s.events.count (j + 1, chapters.length)
            = (if (s.phases.set i .running)[j]? = some .done then 1 else 0)
      by_cases hij : j = i
      · subst hij
        have hnew : (s.phases.set j .running)[j]? = some .running :=
          List.getElem?_set_self hi
        refine ⟨?_, ?_, ?_⟩
        · intro hdone
          rw [hnew] at hdone
          simp at hdone
        · intro _
          exact (hslots j hj).2.1 (by rw [hwait]; simp)
        · rw [hnew]
          have h3 := (hslots j hj).2.2
          rw [hwait] at h3
          simpa using h3
      · have hne : (s.phases.set i .running)[j]? = s.phases[j]? :=
          List.getElem?_set_ne (fun h => hij h.symm)
        rw [hne]
        exact hslots j hj
  | finish i ch hrun hch =>
    rcases List.getElem?_eq_some_iff.mp hrun with ⟨hi, hgi⟩
    rcases List.getElem?_eq_some_iff.mp hch with ⟨hiN, _⟩
    have hir : i < s.results.length := by omega
    refine ⟨by simpa using hlp, by simpa using hlr, ?_, ?_, ?_⟩
    · show runningCount (s.phases.set i .done) ≤ 3
      unfold runningCount at hrc ⊢
      rw [List.countP_set _ _ _ _ hi, hgi]
      have h1 : ((TaskPhase.running == TaskPhase.running) = true) := by decide
      have h2 : ((TaskPhase.done == TaskPhase.running) = false) := by decide
      rw [h1, h2]
      simp only [if_false, if_true, Bool.false_eq_true]
      omega
    · intro j hj
      show ((s.phases.set i .done)[j]? = some .done →
          ∃ ch2, chapters[j]? = some ch2
            ∧ (s.results.set i (some (process_chapter summarize ch)))[j]?
                = some (some (process_chapter summarize ch2)))
        ∧ ((s.phases.set i .done)[j]? ≠ some .done →
            (s.results.set i (some (process_chapter summarize ch)))[j]? = some none)
        ∧ (s.events ++ [(i + 1, chapters.length)]).count (j + 1, chapters.length)
            = (if (s.phases.set i .done)[j]? = some .done then 1 else 0)
      by_cases hij : j = i
      · subst hij
        have hnew : (s.phases.set j .done)[j]? = some .done :=
          List.getElem?_set_self hi
        have h0 := (hslots j hj).2.2
        rw [hrun] at h0
        refine ⟨?_, ?_, ?_⟩
        · intro _
          exact ⟨ch, hch, by rw [List.getElem?_set_self hir]⟩
        · intro hnd
          rw [hnew] at hnd
          simp at hnd
        · rw [hnew, List.count_append]
          rw [if_neg (by simp)] at h0
          rw [h0]
          simp [List.count_singleton]
      · have hnej : i ≠ j := fun h => hij h.symm
        have hne : (s.phases.set i .done)[j]? = s.phases[j]? :=
          List.getElem?_set_ne hnej
        have hner : (s.results.set i (some (process_chapter summarize ch)))[j]?
            = s.results[j]? := List.getElem?_set_ne hnej
        have hpair : (((i + 1 : Nat), chapters.length)
            ≠ ((j + 1 : Nat), chapters.length)) := by
          intro hcontr
          have h5 := congrArg Prod.fst hcontr
          simp only at h5
          exact hij (by omega)
        rw [hne, hner, List.count_append]
        refine ⟨(hslots j hj).1, (hslots j hj).2.1, ?_⟩
        rw [(hslots j hj).2.2]
        simp [List.count_singleton, hpair]
    · intro e he
      rcases List.mem_append.mp he with he | he
      · exact hev e he
      · rcases List.mem_singleton.mp he with rfl
        exact ⟨i, hiN, rfl⟩

theorem fanInv_reach (chapters : List VideoChapter)
    (summarize : VideoChapter → String) (s : FanState)
    (h : FanReach chapters summarize s) : FanInv chapters summarize s := by
  unfold FanReach at h
  induction h with
  | refl => exact fanInv_init chapters summarize
  | tail _ hstep ih => exact fanInv_step chapters summarize _ _ ih hstep

/-- Sample chapters and summarizer for concrete fan-out runs. -/
def chA : VideoChapter := { title := "one", start_time := 0 }

/-- Second sample chapter. -/
def chB : VideoChapter := { title := "two", start_time := 1 }

/-- Third sample chapter. -/
def chC : VideoChapter := { title := "three", start_time := 2 }

/-- Constant summarizer used in the concrete runs. -/
def constSummary : VideoChapter → String := fun _ => "s"

/-- Final state of a completed single-chapter run. -/
def c2FinalOne : FanState :=
  { phases := [.done], results := [some (process_chapter constSummary chA)],
    events := [(1, 1)] }

/-! ### Claims C2 and C3 — fan-out ordering, callback shape, concurrency bound -/

/-- C3 (amended): in every reachable state of the chapter fan-out, at most 3
operations hold the semaphore (never more than the concurrency limit in
flight; admission is possible only while a slot is free, by the `acquire`
rule), and every callback invocation reports the completing item's 1-based
index together with the total — a value that is not, in general, a
monotonically increasing completion counter. -/
theorem C3_concurrency_bound (chapters : List VideoChapter)
    (summarize : VideoChapter → String) (s : FanState)
    (h : FanReach chapters summarize s) :
    runningCount s.phases ≤ 3
    ∧ ∀ e ∈ s.events, ∃ i, i < chapters.length
        ∧ e = (i + 1, chapters.length) :=
  ⟨(fanInv_reach _ _ _ h).2.2.1, (fanInv_reach _ _ _ h).2.2.2.2⟩

theorem C3_witness :
    runningCount (fanInit [chA]).phases ≤ 3
    ∧ ∀ e ∈ (fanInit [chA]).events, ∃ i, i < ([chA] : List VideoChapter).length
        ∧ e = (i + 1, ([chA] : List VideoChapter).length) :=
  C3_concurrency_bound [chA] constSummary (fanInit [chA])
    Relation.ReflTransGen.refl

/-- C3 counterexample: a legal schedule over three chapters (admit all three,
complete task 2, then complete task 0) produces the callback trace
[(3, 3), (1, 3)]: the reported first components 3, 1 are not monotonically
increasing, refuting the "monotonically increasing completion counter" half
of the claim (the ≤-3 bound half is proved above). -/
theorem C3_counterexample :
    FanReach [chA, chB, chC] constSummary
      { phases := [.done, .running, .done],
        results := [some (process_chapter constSummary chA), none,
                    some (process_chapter constSummary chC)],
        events := [(3, 3), (1, 3)] }
    ∧ ¬ List.Pairwise (fun a b => a.1 ≤ b.1)
        ([(3, 3), (1, 3)] : List (Nat × Nat)) := by
  constructor
  · exact Relation.ReflTransGen.tail
      (Relation.ReflTransGen.tail
        (Relation.ReflTransGen.tail
          (Relation.ReflTransGen.tail
            (Relation.ReflTransGen.tail Relation.ReflTransGen.refl
              (FanStep.acquire (fanInit [chA, chB, chC]) 0 rfl (by decide)))
            (FanStep.acquire
              { phases := [.running, .waiting, .waiting],
                results := [none, none, none], events := [] }
              1 rfl (by decide)))
          (FanStep.acquire
            { phases := [.running, .running, .waiting],
              results := [none, none, none], events := [] }
            2 rfl (by decide)))
        (FanStep.finish
          { phases := [.running, .running, .running],
            results := [none, none, none], events := [] }
          2 chC rfl rfl))
      (FanStep.finish
        { phases := [.running, .running, .done],
          results := [none, none, some (process_chapter constSummary chC)],
          events := [(3, 3)] }
        0 chA rfl rfl)
  · simp [List.pairwise_cons]

/-- C2 (amended): any completed fan-out run returns the results in input
order — slot i always holds the processed chapter i, whatever the completion
order was — and the progress callback is invoked exactly once per item; its
arguments, however, are `(itemIndex + 1, total)` for the completing item, not
a running completed-count. -/
theorem C2_order_preserved (chapters : List VideoChapter)
    (summarize : VideoChapter → String) (s : FanState)
    (h : FanReach chapters summarize s)
    (hfinal : ∀ p ∈ s.phases, p = .done) :
    s.results = chapters.map (fun ch => some (process_chapter summarize ch))
    ∧ ∀ i, i < chapters.length →
        s.events.count (i + 1, chapters.length) = 1 := by
  obtain ⟨hlp, hlr, _, hslots, _⟩ := fanInv_reach _ _ _ h
  have hdone : ∀ i, i < chapters.length → s.phases[i]? = some .done := by
    intro i hi
    have hi2 : i < s.phases.length := by omega
    rw [List.getElem?_eq_getElem hi2]
    rw [hfinal _ (List.getElem_mem hi2)]
  constructor
  · apply List.ext_getElem?
    intro n
    by_cases hn : n < chapters.length
    · rcases (hslots n hn).1 (hdone n hn) with ⟨ch, hch, hres⟩
      rw [hres, List.getElem?_map, hch]
      rfl
    · have h1 : s.results[n]? = none := by
        rw [List.getElem?_eq_none]
        omega
      have h2 : (chapters.map (fun ch => some (process_chapter summarize ch)))[n]?
          = none := by
        rw [List.getElem?_eq_none]
        simp
        omega
      rw [h1, h2]
  · intro i hi
    rw [(hslots i hi).2.2, if_pos (hdone i hi)]

theorem C2_witness :
    c2FinalOne.results
      = [chA].map (fun ch => some (process_chapter constSummary ch))
    ∧ ∀ i, i < ([chA] : List VideoChapter).length →
        c2FinalOne.events.count (i + 1, ([chA] : List VideoChapter).length) = 1 :=
  C2_order_preserved [chA] constSummary c2FinalOne
    (Relation.ReflTransGen.tail
      (Relation.ReflTransGen.tail Relation.ReflTransGen.refl
        (FanStep.acquire (fanInit [chA]) 0 rfl (by decide)))
      (FanStep.finish { phases := [.running], results := [none], events := [] }
        0 chA rfl rfl))
    (by decide)

/-- C2 counterexample: over two chapters, the schedule "admit 0, admit 1,
complete 1, complete 0" is legal and reaches the final state below.  Output
order is preserved, but the callback trace is [(2, 2), (1, 2)]: the first
invocation carries 2 while only one item had completed, so the callback is
invoked with the completing item's index, not with `(completedCount, total)`
(which would have produced first components [1, 2]). -/
theorem C2_counterexample :
    FanReach [chA, chB] constSummary
      { phases := [.done, .done],
        results := [some (process_chapter constSummary chA),
                    some (process_chapter constSummary chB)],
        events := [(2, 2), (1, 2)] }
    ∧ ([(2, 2), (1, 2)] : List (Nat × Nat)).map Prod.fst ≠ [1, 2] := by
  constructor
  · exact Relation.ReflTransGen.tail
      (Relation.ReflTransGen.tail
        (Relation.ReflTransGen.tail
          (Relation.ReflTransGen.tail Relation.ReflTransGen.refl
            (FanStep.acquire (fanInit [chA, chB]) 0 rfl (by decide)))
          (FanStep.acquire
            { phases := [.running, .waiting], results := [none, none],
              events := [] }
            1 rfl (by decide)))
        (FanStep.finish
          { phases := [.running, .running], results := [none, none],
            events := [] }
          1 chB rfl rfl))
      (FanStep.finish
        { phases := [.running, .done],
          results := [none, some (process_chapter constSummary chB)],
          events := [(2, 2)] }
        0 chA rfl rfl)
  · decide

theorem C9_witness :
    (⟨"Y", 0, 5⟩ : TranscriptSegment)
      ∈ segments_in_timerange [⟨"Y", 0, 5⟩] 0 (some 120)
    ∧ (⟨"Y", 0, 5⟩ : TranscriptSegment).start < 120 :=
  ⟨((C9_overlap_rule [⟨"Y", 0, 5⟩] 0 120).1 _).mpr
     ⟨by simp, by norm_num, by norm_num⟩,
   (C9_overlap_rule [⟨"Y", 0, 5⟩] 0 120).2 _
     (((C9_overlap_rule [⟨"Y", 0, 5⟩] 0 120).1 _).mpr
       ⟨by simp, by norm_num, by norm_num⟩)⟩
